import Mathlib

/-!
Shallow embedding of the client-side stream engine in `src/pulse/stream.c`
(PulseAudio client library): stream states, the playback write pipeline
(`pa_stream_write`), the timing-info machinery (`pa_stream_update_timing_info`,
`stream_get_timing_info_callback`), the public time query
(`pa_stream_get_time`), legacy buffer-attribute defaults
(`automatic_buffer_attr`), the STARTED event handler
(`pa_command_stream_started`) and the record peek path (`pa_stream_peek`).

Machine integers are modelled as `Nat` (unsigned: tags, sizes, usec) and
`Int` (`int64_t` byte indexes).  The correction ring size
`PA_MAX_WRITE_INDEX_CORRECTIONS` is defined in a header outside the
repository snapshot, so it is kept as a parameter `N`; the spec gives 10 as
an example value and witnesses use it.  External collaborators (transport,
memory pool, smoother, clocks) are modelled as inputs/outputs: the list of
payloads handed to `pa_pstream_send_memblock`, the `shm` capability bit, the
pool's max block size, the freshly computed usec value fed into the
monotonic clamp, and the memblock `acquire` address map.
-/

/-- Error codes used by the modelled paths (`PA_ERR_*`). -/
inductive PaError where
  | badState
  | invalid
  | internalErr
  | noData
  deriving DecidableEq, Repr

/-- Stream lifecycle states (`pa_stream_state_t`). -/
inductive StreamState where
  | unconnected
  | creating
  | ready
  | failed
  | terminated
  deriving DecidableEq, Repr

/-- Stream direction (`pa_stream_direction_t`). -/
inductive Direction where
  | noDirection
  | playback
  | record
  | upload
  deriving DecidableEq, Repr

/-- Seek mode (`pa_seek_mode_t`); constructor order follows the C constants
`PA_SEEK_RELATIVE = 0 .. PA_SEEK_RELATIVE_END = 3`, so every value of this
type passes the `seek <= PA_SEEK_RELATIVE_END` validity check. -/
inductive SeekMode where
  | relative
  | absolute
  | relativeOnRead
  | relativeEnd
  deriving DecidableEq, Repr

/-- One write-index correction slot (`s->write_index_corrections[j]`). -/
structure Correction where
  tag : Nat
  valid : Bool
  absolute : Bool
  corrupt : Bool
  value : Int
  deriving DecidableEq, Repr

/-- The timing snapshot fields the modelled claims touch
(`pa_timing_info`). -/
structure TimingInfo where
  write_index : Int
  read_index : Int
  write_index_corrupt : Bool
  read_index_corrupt : Bool
  deriving DecidableEq, Repr

/-- The stream state relevant to the modelled operations (`pa_stream` from
`internal.h`, fields as used by `stream.c`).  The correction ring is a map
from slot index to slot; only indexes `< N` are meaningful. -/
structure PaStream where
  state : StreamState
  direction : Direction
  requested_bytes : Nat
  timing_info_valid : Bool
  timing_info : TimingInfo
  write_index_corrections : Nat → Correction
  current_write_index_correction : Nat
  read_index_not_before : Nat
  write_index_not_before : Nat
  record_queue_length : Nat
  flags_not_monotonic : Bool
  previous_time : Nat

/-- One transport payload as handed to `pa_pstream_send_memblock(pstream,
channel, t_offset, t_seek, &chunk)`. -/
structure Payload where
  offset : Int
  seek : SeekMode
  length : Nat
  deriving DecidableEq, Repr

/-- The chunking loop of `pa_stream_write` (stream.c:1037-1064).  When
`userBlock` is true (C condition `free_cb && !pa_pstream_get_shm(...)`),
the whole remaining buffer is wrapped as a single user-owned memblock of
length `t_length`; otherwise a pool block of length
`PA_MIN(t_length, pa_mempool_block_size_max(...))` is copied and sent.
After the first chunk, `t_offset = 0` and `t_seek = PA_SEEK_RELATIVE`.
`fuel` bounds the iteration count; `fuel = len` suffices whenever
`maxBlock > 0` since every iteration consumes at least one byte. -/
def writeChunksAux : Nat → Bool → Nat → Int → SeekMode → Nat → List Payload
  | 0, _, _, _, _, _ => []
  | _ + 1, _, _, _, _, 0 => []
  | fuel + 1, userBlock, maxBlock, off, sk, len =>
    let clen := if userBlock then len else min len maxBlock
    { offset := off, seek := sk, length := clen } ::
      writeChunksAux fuel userBlock maxBlock 0 SeekMode.relative (len - clen)

/-- Payload sequence produced by the `while (t_length > 0)` loop of
`pa_stream_write` for a buffer of `len` bytes. -/
def writeChunks (userBlock : Bool) (maxBlock : Nat) (off : Int)
    (sk : SeekMode) (len : Nat) : List Payload :=
  writeChunksAux len userBlock maxBlock off sk len

/-- Result of `pa_stream_write`: the mutated stream, the payloads passed to
the transport, and whether `free_cb` was invoked directly at the end of the
call (stream.c:1066-1067). -/
structure WriteOutcome where
  stream : PaStream
  payloads : List Payload
  freeCbInvoked : Bool

/-- The credit update of `pa_stream_write` (stream.c:1069-1072):
`if (length < s->requested_bytes) s->requested_bytes -= length; else
s->requested_bytes = 0;`. -/
def creditUpdate (s : PaStream) (length : Nat) : PaStream :=
  { s with requested_bytes :=
      if length < s.requested_bytes then s.requested_bytes - length else 0 }

/-- The latency-request correction update of `pa_stream_write`
(stream.c:1077-1088): when the current slot is valid, an absolute seek
makes it absolute with value `offset + length`, a relative seek adds
`offset + length` (unless the slot is corrupt), and any other seek mode
corrupts it. -/
def corrSlotUpdate (s : PaStream) (length : Nat) (offset : Int)
    (seek : SeekMode) : PaStream :=
  let cur := s.current_write_index_correction
  if (s.write_index_corrections cur).valid then
    let c := s.write_index_corrections cur
    let c1 :=
      if seek = SeekMode.absolute then
        { c with corrupt := false, absolute := true,
                 value := offset + (length : Int) }
      else if seek = SeekMode.relative then
        if ¬ c.corrupt then
          { c with value := c.value + offset + (length : Int) }
        else c
      else { c with corrupt := true }
    { s with write_index_corrections :=
        Function.update s.write_index_corrections cur c1 }
  else s

/-- The snapshot write-index update of `pa_stream_write`
(stream.c:1091-1101): when timing info is already available, mirror the
seek on the snapshot write index. -/
def snapshotUpdate (s : PaStream) (length : Nat) (offset : Int)
    (seek : SeekMode) : PaStream :=
  if s.timing_info_valid then
    let i := s.timing_info
    let i1 :=
      if seek = SeekMode.absolute then
        { i with write_index_corrupt := false,
                 write_index := offset + (length : Int) }
      else if seek = SeekMode.relative then
        if ¬ i.write_index_corrupt then
          { i with write_index := i.write_index + offset + (length : Int) }
        else i
      else { i with write_index_corrupt := true }
    { s with timing_info := i1 }
  else s

/-- The state mutation of a successful non-empty `pa_stream_write`
(stream.c:1069-1105): the credit update, then for playback the correction
slot and snapshot updates.  The auto-timing refresh of stream.c:1103-1104
only schedules a query and mutates none of the modelled fields. -/
def writeUpdateState (s : PaStream) (length : Nat) (offset : Int)
    (seek : SeekMode) : PaStream :=
  let s1 := creditUpdate s length
  if s1.direction = Direction.playback then
    snapshotUpdate (corrSlotUpdate s1 length offset seek) length offset seek
  else s1

/-- Shallow embedding of `pa_stream_write` (stream.c:1006-1108).  `shm` is
`pa_pstream_get_shm(s->context->pstream)`, `maxBlock` is
`pa_mempool_block_size_max(s->context->mempool)`, `hasFreeCb` is
`free_cb != NULL`.  The `seek <= PA_SEEK_RELATIVE_END` check is vacuous for
the `SeekMode` type (see its docstring) and therefore omitted. -/
def pa_stream_write (shm : Bool) (maxBlock : Nat) (s : PaStream)
    (hasFreeCb : Bool) (length : Nat) (offset : Int) (seek : SeekMode) :
    Except PaError WriteOutcome :=
  if ¬ (s.state = StreamState.ready) then .error .badState
  else if ¬ (s.direction = Direction.playback ∨ s.direction = Direction.upload) then
    .error .badState
  else if ¬ (s.direction = Direction.playback ∨
      (seek = SeekMode.relative ∧ offset = 0)) then .error .invalid
  else if length = 0 then .ok ⟨s, [], false⟩
  else
    .ok ⟨writeUpdateState s length offset seek,
         writeChunks (hasFreeCb && !shm) maxBlock offset seek length,
         hasFreeCb && shm⟩

/-- Accumulator of the write-index correction loop in
`stream_get_timing_info_callback` (stream.c:1350-1380): the running tag
bound `ctag`, the timing snapshot being fixed up, and — as ghost
instrumentation absent from the C — the list of slot indexes consumed so
far, in consumption order. -/
structure WalkAcc where
  ctag : Nat
  ti : TimingInfo
  applied : List Nat

/-- One iteration of the correction loop body (stream.c:1359-1379): skip a
slot that is invalid or whose tag is below `ctag`; otherwise advance `ctag`
past the slot's tag, record the slot as applied, and fix the write index
(corrupting seek zeroes it and marks it corrupt, absolute seek overwrites
it and clears corrupt, relative seek adds its value when not corrupt). -/
def applyCorrectionSlot (corr : Nat → Correction) (acc : WalkAcc) (j : Nat) :
    WalkAcc :=
  let c := corr j
  if ¬ c.valid ∨ c.tag < acc.ctag then acc
  else
    let acc1 := { acc with ctag := c.tag + 1, applied := acc.applied ++ [j] }
    if c.corrupt then
      { acc1 with ti := { acc1.ti with write_index := 0,
                                       write_index_corrupt := true } }
    else if c.absolute then
      { acc1 with ti := { acc1.ti with write_index := c.value,
                                       write_index_corrupt := false } }
    else if ¬ acc1.ti.write_index_corrupt then
      { acc1 with ti := { acc1.ti with
          write_index := acc1.ti.write_index + c.value } }
    else acc1

/-- The loop's visit order (stream.c:1355-1357): `j` starts at
`current_write_index_correction + 1` and steps through all `N` ring
indexes modulo `N`. -/
def walkIndices (N cur : Nat) : List Nat :=
  (List.range N).map (fun n => (cur + 1 + n) % N)

/-- The whole correction walk for the latency reply with tag `tag`,
starting from snapshot `ti` (with `ctag` initialised to the reply tag). -/
def correctionWalk (N : Nat) (corr : Nat → Correction) (cur tag : Nat)
    (ti : TimingInfo) : WalkAcc :=
  (walkIndices N cur).foldl (applyCorrectionSlot corr) ⟨tag, ti, []⟩

/-- The clearing loop (stream.c:1396-1402): every valid slot with
`tag <= tag` of the processed reply loses its `valid` bit; indexes `>= N`
are untouched (the C loop runs `n` over `[0, N)`). -/
def clearOldCorrections (N : Nat) (corr : Nat → Correction) (tag : Nat) :
    Nat → Correction :=
  fun n =>
    let c := corr n
    if n < N ∧ c.valid ∧ c.tag ≤ tag then { c with valid := false } else c

/-- The server-supplied fields of a successfully parsed latency reply that
feed the snapshot arithmetic (stream.c:1288-1294).  The clock-sync fields
(`local`/`remote` timevals, `transport_usec`, `timestamp`) and the
smoother feed are omitted: no modelled claim mentions them and they do not
influence the index/corrupt fields. -/
structure ReplySnapshot where
  write_index : Int
  read_index : Int
  deriving DecidableEq, Repr

/-- The success path of `stream_get_timing_info_callback`
(stream.c:1276-1403) for the reply with tag `tag`: reset the corrupt
flags, install the reply's indexes, apply the invalidation barriers
(`tag < *_not_before`), run the correction walk and clear old slots
(playback), or subtract the locally queued bytes from `read_index`
(record). -/
def process_timing_reply (N : Nat) (s : PaStream) (tag : Nat)
    (r : ReplySnapshot) : PaStream :=
  let i0 : TimingInfo :=
    { write_index := r.write_index, read_index := r.read_index,
      write_index_corrupt := false, read_index_corrupt := false }
  let i1 := { i0 with
    read_index_corrupt := decide (tag < s.read_index_not_before),
    write_index_corrupt := decide (tag < s.write_index_not_before) }
  if s.direction = Direction.playback then
    let w := correctionWalk N s.write_index_corrections
      s.current_write_index_correction tag i1
    { s with timing_info_valid := true, timing_info := w.ti,
             write_index_corrections :=
               clearOldCorrections N s.write_index_corrections tag }
  else if s.direction = Direction.record then
    let i2 :=
      if ¬ i1.read_index_corrupt then
        { i1 with read_index := i1.read_index - (s.record_queue_length : Int) }
      else i1
    { s with timing_info_valid := true, timing_info := i2 }
  else { s with timing_info_valid := true, timing_info := i1 }

/-- Shallow embedding of `pa_stream_update_timing_info`
(stream.c:1455-1500), with `tag` the request tag assigned by
`pa_tagstruct_command`.  For playback, the slot at
`(current_write_index_correction + 1) % N` must be invalid
(else `PA_ERR_INTERNAL`, with nothing sent and no state change — the C
macro returns NULL before any mutation); on success that slot becomes
current and is initialised to `{tag, valid, !absolute, !corrupt, 0}`. -/
def pa_stream_update_timing_info (N : Nat) (s : PaStream) (tag : Nat) :
    Except PaError PaStream :=
  if ¬ (s.state = StreamState.ready) then .error .badState
  else if s.direction = Direction.upload then .error .badState
  else if s.direction = Direction.playback then
    let cidx := (s.current_write_index_correction + 1) % N
    if (s.write_index_corrections cidx).valid then .error .internalErr
    else
      .ok { s with
        current_write_index_correction := cidx,
        write_index_corrections :=
          Function.update s.write_index_corrections cidx
            { tag := tag, valid := true, absolute := false,
              corrupt := false, value := 0 } }
  else .ok s

/-- Shallow embedding of `pa_stream_get_time` (stream.c:1848-1877).
`fresh` is the freshly computed time value — `pa_smoother_get(...)` when a
smoother is present, else `calc_time(s, FALSE)` — which depends on the
clocks and is therefore an input here.  Under the default flags
(no `PA_STREAM_NOT_MONOTONOUS`) the result is clamped against
`previous_time` and `previous_time` is republished. -/
def pa_stream_get_time (s : PaStream) (fresh : Nat) :
    Except PaError (Nat × PaStream) :=
  if ¬ (s.state = StreamState.ready) then .error .badState
  else if s.direction = Direction.upload then .error .badState
  else if ¬ s.timing_info_valid then .error .noData
  else if s.direction = Direction.playback ∧ s.timing_info.read_index_corrupt then
    .error .noData
  else if s.direction = Direction.record ∧ s.timing_info.write_index_corrupt then
    .error .noData
  else if s.flags_not_monotonic then .ok (fresh, s)
  else if fresh < s.previous_time then .ok (s.previous_time, s)
  else .ok (fresh, { s with previous_time := fresh })

/-- Caller-visible buffer attributes (`pa_buffer_attr`). -/
structure BufferAttr where
  maxlength : Nat
  tlength : Nat
  prebuf : Nat
  minreq : Nat
  fragsize : Nat
  deriving DecidableEq, Repr

/-- Shallow embedding of `automatic_buffer_attr` (stream.c:681-709).
`version` is `s->context->version` and `tlenDefault` is
`pa_usec_to_bytes(250 * PA_USEC_PER_MSEC, ss)` (the sample-spec conversion
lives outside this repository snapshot).  The C guards for maxlength,
tlength and minreq read `!attr->field <= 0`, i.e. `(!attr->field) <= 0`,
which is true exactly when the field is non-zero — modelled here with the
C `!` operator written out as an `if` producing 0 or 1.  The prebuf and
fragsize guards are the plain `!attr->field`. -/
def automatic_buffer_attr (version : Nat) (attr : BufferAttr)
    (tlenDefault : Nat) : BufferAttr :=
  if version ≥ 13 then attr
  else
    let a1 :=
      if (if attr.maxlength = 0 then (1 : Nat) else 0) ≤ 0 then
        { attr with maxlength := 4 * 1024 * 1024 }
      else attr
    let a2 :=
      if (if a1.tlength = 0 then (1 : Nat) else 0) ≤ 0 then
        { a1 with tlength := tlenDefault }
      else a1
    let a3 :=
      if (if a2.minreq = 0 then (1 : Nat) else 0) ≤ 0 then
        { a2 with minreq := a2.tlength / 5 }
      else a2
    let a4 := if a3.prebuf = 0 then { a3 with prebuf := a3.tlength } else a3
    if a4.fragsize = 0 then { a4 with fragsize := a4.tlength } else a4

/-- The callback-registration state of a stream relevant to the STARTED
event: whether a started callback is registered, its userdata, and the
(unrelated) suspended callback's userdata.  Userdata pointers are
modelled as `Nat` identities. -/
structure CallbackStream where
  state : StreamState
  started_callback_set : Bool
  started_userdata : Nat
  suspended_userdata : Nat
  deriving DecidableEq, Repr

/-- Shallow embedding of `pa_stream_set_started_callback`
(stream.c:1641-1650): a no-op on terminated/failed streams, otherwise it
stores the callback and its userdata. -/
def pa_stream_set_started_callback (s : CallbackStream) (cbSet : Bool)
    (userdata : Nat) : CallbackStream :=
  if s.state = StreamState.terminated ∨ s.state = StreamState.failed then s
  else { s with started_callback_set := cbSet, started_userdata := userdata }

/-- Shallow embedding of `pa_command_stream_started` (stream.c:496-533)
for a well-formed event addressed to playback stream `s` of a context at
protocol `version`: returns the userdata value passed to the started
callback, or `none` when no callback fires (version < 13 fails the
context; a non-ready stream is skipped; an unset callback is not called).
The source passes `s->suspended_userdata` (stream.c:529). -/
def pa_command_stream_started (version : Nat) (s : CallbackStream) :
    Option Nat :=
  if version < 13 then none
  else if ¬ (s.state = StreamState.ready) then none
  else if s.started_callback_set then some s.suspended_userdata
  else none

/-- A memory chunk (`pa_memchunk`): memblock identity, byte offset inside
the block, and length.  Block identity 0 plays NULL. -/
structure MemChunk where
  block : Nat
  index : Nat
  length : Nat
  deriving DecidableEq, Repr

/-- The record-stream state relevant to `pa_stream_peek`:
`peek_memchunk.memblock == NULL` is modelled by `peek_memchunk = none`;
`queue_head` models the chunk `pa_memblockq_peek(s->record_memblockq, ...)`
would return (`none` when it fails). -/
structure RecordStream where
  state : StreamState
  direction : Direction
  peek_memchunk : Option MemChunk
  peek_data : Nat
  queue_head : Option MemChunk
  deriving DecidableEq, Repr

/-- Result of `pa_stream_peek`: the mutated stream, the `(data, length)`
pair written through the out-parameters (`none` for `(NULL, 0)`), and —
ghost instrumentation — whether `pa_memblockq_peek` was consulted. -/
structure PeekResult where
  stream : RecordStream
  dataLen : Option (Nat × Nat)
  queueConsulted : Bool
  deriving DecidableEq, Repr

/-- Shallow embedding of `pa_stream_peek` (stream.c:1110-1134).
`acquire` maps a memblock identity to its base address
(`pa_memblock_acquire`).  If no chunk is currently peeked, the queue is
consulted: on failure the out-parameters are `(NULL, 0)`; on success the
chunk is retained and acquired.  In every non-failing case the result is
`peek_data + peek_memchunk.index` and `peek_memchunk.length`. -/
def pa_stream_peek (acquire : Nat → Nat) (s : RecordStream) :
    Except PaError PeekResult :=
  if ¬ (s.state = StreamState.ready) then .error .badState
  else if ¬ (s.direction = Direction.record) then .error .badState
  else
    match s.peek_memchunk with
    | none =>
      match s.queue_head with
      | none => .ok ⟨s, none, true⟩
      | some c =>
        let s1 := { s with peek_memchunk := some c,
                           peek_data := acquire c.block }
        .ok ⟨s1, some (acquire c.block + c.index, c.length), true⟩
    | some c => .ok ⟨s, some (s.peek_data + c.index, c.length), false⟩

/-- An invalid (never yet used) correction slot, as after
`memset(s->write_index_corrections, 0, ...)` in `pa_stream_new`. -/
def corrInvalid : Correction :=
  { tag := 0, valid := false, absolute := false, corrupt := false, value := 0 }

/-- A zeroed timing snapshot. -/
def tiZero : TimingInfo :=
  { write_index := 0, read_index := 0,
    write_index_corrupt := false, read_index_corrupt := false }

/-- A ready playback stream with default flags, 4096 bytes of credit, a
valid zero snapshot and an empty correction ring; used by the concrete
witnesses. -/
def streamEx : PaStream :=
  { state := StreamState.ready, direction := Direction.playback,
    requested_bytes := 4096, timing_info_valid := true,
    timing_info := tiZero,
    write_index_corrections := fun _ => corrInvalid,
    current_write_index_correction := 0,
    read_index_not_before := 0, write_index_not_before := 0,
    record_queue_length := 0, flags_not_monotonic := false,
    previous_time := 0 }

/-- A correction ring holding one valid absolute slot (tag 10, value 1500)
at index 6. -/
def corrEx1 : Nat → Correction :=
  fun j =>
    if j = 6 then
      { tag := 10, valid := true, absolute := true, corrupt := false,
        value := 1500 }
    else corrInvalid

/-- Playback stream whose write index was invalidated at context tag 11
(so a reply for tag 10 is behind the barrier) but whose ring holds the
absolute slot of `corrEx1`, reserved by the query with tag 10. -/
def streamC5 : PaStream :=
  { streamEx with write_index_corrections := corrEx1,
                  current_write_index_correction := 5,
                  write_index_not_before := 11 }

/-- Playback stream with both barriers at tag 11 and an empty ring. -/
def streamC5w : PaStream :=
  { streamEx with write_index_not_before := 11, read_index_not_before := 11 }

/-- The stream `streamC5` (which holds a valid absolute slot) with its
read barrier also at tag 11. -/
def streamC5r : PaStream := { streamC5 with read_index_not_before := 11 }

/-- The stream `streamEx` after a successful `pa_stream_get_time` returned
500 usec. -/
def s1Ex : PaStream := { streamEx with previous_time := 500 }

/-- Outcome of `pa_stream_write false 4 streamEx false 10 7 absolute`:
three payloads of 4+4+2 bytes, the first carrying the caller's absolute
seek to offset 7. -/
def outC2 : WriteOutcome :=
  { stream :=
      { streamEx with
          requested_bytes := 4086,
          timing_info :=
            { write_index := 7 + (10 : Int), read_index := 0,
              write_index_corrupt := false, read_index_corrupt := false } },
    payloads :=
      [ { offset := 7, seek := SeekMode.absolute, length := 4 },
        { offset := 0, seek := SeekMode.relative, length := 4 },
        { offset := 0, seek := SeekMode.relative, length := 2 } ],
    freeCbInvoked := false }

/-- Outcome of `pa_stream_write false 4096 streamEx false 100 0 relative`:
one payload, credit 4096 − 100. -/
def outC3 : WriteOutcome :=
  { stream :=
      { streamEx with
          requested_bytes := 3996,
          timing_info :=
            { write_index := 0 + (0 + (100 : Int)), read_index := 0,
              write_index_corrupt := false, read_index_corrupt := false } },
    payloads := [ { offset := 0, seek := SeekMode.relative, length := 100 } ],
    freeCbInvoked := false }

/-- Buffer attributes with `maxlength` unset (0) and caller-supplied
non-zero `tlength = 1000` and `minreq = 100`. -/
def attrC7 : BufferAttr :=
  { maxlength := 0, tlength := 1000, prebuf := 0, minreq := 100,
    fragsize := 0 }

/-- A ready stream whose suspended callback was registered with
userdata 2 and that has no started callback yet. -/
def cbsC8 : CallbackStream :=
  { state := StreamState.ready, started_callback_set := false,
    started_userdata := 0, suspended_userdata := 2 }

/-- A ready record stream with nothing peeked and one queued chunk
(block 3, index 4, length 5). -/
def recEx : RecordStream :=
  { state := StreamState.ready, direction := Direction.record,
    peek_memchunk := none, peek_data := 0,
    queue_head := some { block := 3, index := 4, length := 5 } }

/-- The result of the first `pa_stream_peek` on `recEx` with
`acquire = id`. -/
def peekResEx : PeekResult :=
  { stream :=
      { recEx with peek_memchunk := some { block := 3, index := 4, length := 5 },
                   peek_data := 3 },
    dataLen := some (7, 5),
    queueConsulted := true }

/-- Every iteration budget handles the empty buffer. -/
lemma writeChunksAux_zero (fuel : Nat) (ub : Bool) (mb : Nat) (off : Int)
    (sk : SeekMode) : writeChunksAux fuel ub mb off sk 0 = [] := by
  cases fuel <;> rfl

/-- The payload lengths of the chunking loop sum to the buffer length. -/
lemma writeChunksAux_sum (fuel : Nat) : ∀ (ub : Bool) (mb : Nat) (off : Int)
    (sk : SeekMode) (len : Nat), len ≤ fuel → 0 < mb →
    ((writeChunksAux fuel ub mb off sk len).map Payload.length).sum = len := by
  induction fuel with
  | zero =>
    intro ub mb off sk len hlen _
    interval_cases len
    rfl
  | succ fuel ih =>
    intro ub mb off sk len hlen hmb
    match len with
    | 0 => rfl
    | (l + 1) =>
      simp only [writeChunksAux, List.map_cons, List.sum_cons]
      have hclen : (if ub then l + 1 else min (l + 1) mb) ≤ l + 1 := by
        split <;> omega
      have hclen1 : 1 ≤ (if ub then l + 1 else min (l + 1) mb) := by
        split <;> omega
      rw [ih ub mb 0 SeekMode.relative _ (by omega) hmb]
      omega

/-- Copy path (`free_cb == NULL` or SHM): the loop emits exactly
`ceil(len / maxBlock)` payloads. -/
lemma writeChunksAux_count_copy (fuel : Nat) : ∀ (mb : Nat) (off : Int)
    (sk : SeekMode) (len : Nat), len ≤ fuel → 0 < mb →
    (writeChunksAux fuel false mb off sk len).length = (len + mb - 1) / mb := by
  induction fuel with
  | zero =>
    intro mb off sk len hlen hmb
    interval_cases len
    simp [writeChunksAux, Nat.div_eq_of_lt (by omega : mb - 1 < mb)]
  | succ fuel ih =>
    intro mb off sk len hlen hmb
    match len with
    | 0 => simp [writeChunksAux, Nat.div_eq_of_lt (by omega : mb - 1 < mb)]
    | (l + 1) =>
      simp only [writeChunksAux, Bool.false_eq_true, if_false, List.length_cons]
      rw [ih mb 0 SeekMode.relative _ (by omega) hmb]
      have hrw : l + 1 + mb - 1 = l + mb := by omega
      rw [hrw]
      rcases le_or_lt (l + 1) mb with hle | hlt
      · have h1 : min (l + 1) mb = l + 1 := by omega
        rw [h1]
        have h2 : l + 1 - (l + 1) = 0 := by omega
        rw [h2, Nat.div_eq_of_lt (by omega : 0 + mb - 1 < mb),
            Nat.add_div_right l hmb, Nat.div_eq_of_lt (by omega : l < mb)]
      · have h1 : min (l + 1) mb = mb := by omega
        rw [h1]
        have h2 : l + 1 - mb + mb - 1 = l := by omega
        rw [h2, Nat.add_div_right l hmb]

/-- User-block path (`free_cb != NULL` and no SHM): the whole buffer goes
out as a single payload. -/
lemma writeChunksAux_count_user (fuel : Nat) (mb : Nat) (off : Int)
    (sk : SeekMode) (len : Nat) (hpos : 1 ≤ len) (hlen : len ≤ fuel) :
    writeChunksAux fuel true mb off sk len =
      [{ offset := off, seek := sk, length := len }] := by
  cases fuel with
  | zero => omega
  | succ fuel =>
    cases len with
    | zero => omega
    | succ l => simp [writeChunksAux, writeChunksAux_zero]

/-- All payloads of a loop continuation started with `t_offset = 0`,
`t_seek = PA_SEEK_RELATIVE` keep that offset and seek mode. -/
lemma writeChunksAux_rel (fuel : Nat) : ∀ (ub : Bool) (mb len : Nat),
    ∀ p ∈ writeChunksAux fuel ub mb 0 SeekMode.relative len,
      p.offset = 0 ∧ p.seek = SeekMode.relative := by
  induction fuel with
  | zero => intro ub mb len p hp; simp [writeChunksAux] at hp
  | succ fuel ih =>
    intro ub mb len p hp
    match len with
    | 0 => simp [writeChunksAux] at hp
    | (l + 1) =>
      simp only [writeChunksAux, List.mem_cons] at hp
      rcases hp with hp | hp
      · subst hp; exact ⟨rfl, rfl⟩
      · exact ih ub mb _ p hp

/-- A buffer of `l + 1` bytes yields a first payload with the caller's
offset and seek mode, followed by the loop continuation. -/
lemma writeChunks_cons (ub : Bool) (mb : Nat) (off : Int) (sk : SeekMode)
    (l : Nat) :
    writeChunks ub mb off sk (l + 1) =
      { offset := off, seek := sk,
        length := if ub then l + 1 else min (l + 1) mb } ::
        writeChunksAux l ub mb 0 SeekMode.relative
          (l + 1 - if ub then l + 1 else min (l + 1) mb) := rfl

/-- The credit update inside `writeUpdateState` is exactly the C
`if`/`else` on the original counter; the playback bookkeeping never
touches `requested_bytes`. -/
lemma writeUpdateState_rb (s : PaStream) (len : Nat) (off : Int)
    (sk : SeekMode) :
    (writeUpdateState s len off sk).requested_bytes =
      (if len < s.requested_bytes then s.requested_bytes - len else 0) := by
  have hcorr : ∀ (t : PaStream),
      (corrSlotUpdate t len off sk).requested_bytes = t.requested_bytes := by
    intro t
    simp only [corrSlotUpdate]
    split
    · rfl
    · rfl
  have hsnap : ∀ (t : PaStream),
      (snapshotUpdate t len off sk).requested_bytes = t.requested_bytes := by
    intro t
    simp only [snapshotUpdate]
    split
    · rfl
    · rfl
  simp only [writeUpdateState]
  split
  · rw [hsnap, hcorr]; rfl
  · rfl

/-- On success with a non-empty buffer, `pa_stream_write` emits exactly the
chunking loop's payloads, invokes `free_cb` iff it was given and SHM is in
use, and mutates the stream via `writeUpdateState`. -/
lemma pa_stream_write_ok_main (shm : Bool) (mb : Nat) (s : PaStream)
    (fcb : Bool) (len : Nat) (off : Int) (sk : SeekMode) (out : WriteOutcome)
    (hok : pa_stream_write shm mb s fcb len off sk = .ok out)
    (hlen : len ≠ 0) :
    out.payloads = writeChunks (fcb && !shm) mb off sk len ∧
    out.freeCbInvoked = (fcb && shm) ∧
    out.stream = writeUpdateState s len off sk := by
  simp only [pa_stream_write] at hok
  split at hok
  · simp at hok
  split at hok
  · simp at hok
  split at hok
  · simp at hok
  injection hok with h
  subst h
  exact ⟨rfl, rfl, rfl⟩

/-- The loop body leaves `ctag` and the applied list unchanged when the
slot is skipped. -/
lemma applyCorrectionSlot_skip (corr : Nat → Correction) (acc : WalkAcc)
    (j : Nat) (h : ¬ (corr j).valid ∨ (corr j).tag < acc.ctag) :
    applyCorrectionSlot corr acc j = acc := by
  simp only [applyCorrectionSlot]
  rw [if_pos h]

/-- A consumed slot advances `ctag` past its tag and is appended to the
applied list, whichever of the three fix-up branches runs. -/
lemma applyCorrectionSlot_consume (corr : Nat → Correction) (acc : WalkAcc)
    (j : Nat) (h : ¬ (¬ (corr j).valid ∨ (corr j).tag < acc.ctag)) :
    (applyCorrectionSlot corr acc j).ctag = (corr j).tag + 1 ∧
    (applyCorrectionSlot corr acc j).applied = acc.applied ++ [j] := by
  simp only [applyCorrectionSlot]
  rw [if_neg h]
  constructor <;> (split <;> (try rfl) <;> split <;> (try rfl) <;> split <;> rfl)

/-- The loop body never touches the read-index fields of the snapshot. -/
lemma applyCorrectionSlot_read (corr : Nat → Correction) (acc : WalkAcc)
    (j : Nat) :
    (applyCorrectionSlot corr acc j).ti.read_index_corrupt
        = acc.ti.read_index_corrupt ∧
    (applyCorrectionSlot corr acc j).ti.read_index = acc.ti.read_index := by
  simp only [applyCorrectionSlot]
  constructor <;>
    (split <;> (try rfl) <;> split <;> (try rfl) <;> split <;> (try rfl) <;>
      split <;> rfl)

/-- Neither does the whole walk. -/
lemma foldl_slots_read (corr : Nat → Correction) :
    ∀ (l : List Nat) (acc : WalkAcc),
    (List.foldl (applyCorrectionSlot corr) acc l).ti.read_index_corrupt
        = acc.ti.read_index_corrupt ∧
    (List.foldl (applyCorrectionSlot corr) acc l).ti.read_index
        = acc.ti.read_index := by
  intro l
  induction l with
  | nil => intro acc; exact ⟨rfl, rfl⟩
  | cons x l ih =>
    intro acc
    simp only [List.foldl_cons]
    obtain ⟨h1, h2⟩ := ih (applyCorrectionSlot corr acc x)
    obtain ⟨g1, g2⟩ := applyCorrectionSlot_read corr acc x
    exact ⟨h1.trans g1, h2.trans g2⟩

/-- If no valid slot is absolute, a corrupt snapshot write index stays
corrupt through one loop iteration. -/
lemma applyCorrectionSlot_corrupt_stays (corr : Nat → Correction)
    (acc : WalkAcc) (j : Nat)
    (H : (corr j).valid = true → (corr j).absolute = false)
    (h : acc.ti.write_index_corrupt = true) :
    (applyCorrectionSlot corr acc j).ti.write_index_corrupt = true := by
  simp only [applyCorrectionSlot]
  split
  · exact h
  · rename_i hg
    push_neg at hg
    split
    · rfl
    · split
      · rename_i habs
        rw [H hg.1] at habs
        simp at habs
      · exact h

/-- If no valid slot is absolute, a corrupt snapshot write index stays
corrupt through the whole walk. -/
lemma foldl_slots_corrupt_stays (corr : Nat → Correction)
    (H : ∀ j, (corr j).valid = true → (corr j).absolute = false) :
    ∀ (l : List Nat) (acc : WalkAcc),
    acc.ti.write_index_corrupt = true →
    (List.foldl (applyCorrectionSlot corr) acc l).ti.write_index_corrupt
      = true := by
  intro l
  induction l with
  | nil => intro acc h; exact h
  | cons x l ih =>
    intro acc h
    simp only [List.foldl_cons]
    exact ih _ (applyCorrectionSlot_corrupt_stays corr acc x (H x) h)

/-- Main invariant of the correction walk: the running bound never drops
below the reply tag, every consumed slot is valid with tag at least the
reply tag and below the final bound, and consumed tags are strictly
increasing in consumption order. -/
lemma foldl_slots_inv (corr : Nat → Correction) (T : Nat) :
    ∀ (l : List Nat) (acc : WalkAcc),
    T ≤ acc.ctag →
    (∀ j ∈ acc.applied, (corr j).valid = true ∧ T ≤ (corr j).tag ∧
        (corr j).tag < acc.ctag) →
    List.Chain' (fun a b => (corr a).tag < (corr b).tag) acc.applied →
    T ≤ (List.foldl (applyCorrectionSlot corr) acc l).ctag ∧
    (∀ j ∈ (List.foldl (applyCorrectionSlot corr) acc l).applied,
        (corr j).valid = true ∧ T ≤ (corr j).tag ∧
        (corr j).tag < (List.foldl (applyCorrectionSlot corr) acc l).ctag) ∧
    List.Chain' (fun a b => (corr a).tag < (corr b).tag)
        (List.foldl (applyCorrectionSlot corr) acc l).applied := by
  intro l
  induction l with
  | nil => intro acc h1 h2 h3; exact ⟨h1, h2, h3⟩
  | cons x l ih =>
    intro acc h1 h2 h3
    simp only [List.foldl_cons]
    by_cases hg : ¬ (corr x).valid ∨ (corr x).tag < acc.ctag
    · rw [applyCorrectionSlot_skip corr acc x hg]
      exact ih acc h1 h2 h3
    · obtain ⟨hct, hap⟩ := applyCorrectionSlot_consume corr acc x hg
      push_neg at hg
      apply ih
      · rw [hct]; omega
      · intro j hj
        rw [hap] at hj
        rcases List.mem_append.mp hj with hj | hj
        · obtain ⟨hv, hT, hlt⟩ := h2 j hj
          refine ⟨hv, hT, ?_⟩
          rw [hct]
          have := hg.2
          omega
        · rw [List.mem_singleton] at hj
          subst hj
          refine ⟨hg.1, le_trans h1 hg.2, ?_⟩
          rw [hct]
          omega
      · rw [hap]
        rw [List.chain'_append]
        refine ⟨h3, List.chain'_singleton _, ?_⟩
        intro a ha b hb
        rw [List.head?_cons, Option.mem_some_iff] at hb
        subst hb
        have hmem : a ∈ acc.applied := List.mem_of_mem_getLast? ha
        obtain ⟨_, _, hlt⟩ := h2 a hmem
        exact lt_of_lt_of_le hlt hg.2

/-- The correction walk never touches the read-index fields. -/
lemma correctionWalk_read (N : Nat) (corr : Nat → Correction) (cur tag : Nat)
    (ti : TimingInfo) :
    (correctionWalk N corr cur tag ti).ti.read_index_corrupt
      = ti.read_index_corrupt := by
  exact (foldl_slots_read corr (walkIndices N cur) ⟨tag, ti, []⟩).1

/-- When no valid slot is absolute, the walk cannot clear a corrupt write
index. -/
lemma correctionWalk_corrupt (N : Nat) (corr : Nat → Correction)
    (cur tag : Nat) (ti : TimingInfo)
    (H : ∀ j, (corr j).valid = true → (corr j).absolute = false)
    (h : ti.write_index_corrupt = true) :
    (correctionWalk N corr cur tag ti).ti.write_index_corrupt = true := by
  exact foldl_slots_corrupt_stays corr H (walkIndices N cur) ⟨tag, ti, []⟩ h

/-- A successful `pa_stream_get_time` returns the clamp of the fresh value
against `previous_time`, republishes `previous_time`, and preserves the
flag (under default flags). -/
lemma get_time_ok (s : PaStream) (f t : Nat) (s1 : PaStream)
    (hm : s.flags_not_monotonic = false)
    (h : pa_stream_get_time s f = .ok (t, s1)) :
    t = max f s.previous_time ∧ s1.previous_time = t ∧
    s1.flags_not_monotonic = false := by
  simp only [pa_stream_get_time] at h
  split at h
  · simp at h
  split at h
  · simp at h
  split at h
  · simp at h
  split at h
  · simp at h
  split at h
  · simp at h
  rw [hm] at h
  simp only [Bool.false_eq_true, if_false] at h
  rcases lt_or_ge f s.previous_time with hlt | hge
  · rw [if_pos hlt] at h
    injection h with h2
    injection h2 with ha hb
    subst ha
    subst hb
    exact ⟨(max_eq_right hlt.le).symm, rfl, hm⟩
  · rw [if_neg (by omega)] at h
    injection h with h2
    injection h2 with ha hb
    subst ha
    subst hb
    exact ⟨(max_eq_left hge).symm, rfl, rfl⟩

/-- C1: when the latency reply for a query with tag `T` is processed for a
playback stream, correction slots are consumed in strictly increasing tag
order starting from the slot after the current cursor (the walk order of
`correctionWalk`): a slot is applied only if it is valid and its tag is at
least the running bound (initially `T`), each applied slot is applied at
most once, a corrupt slot zeroes the snapshot write index and marks it
corrupt, an absolute slot overwrites it and clears corrupt, a relative
slot adds its value when the snapshot is not corrupt, and afterwards every
ring slot whose tag is at most `T` is marked invalid. -/
theorem spec_C1 (N : Nat) (corr : Nat → Correction) (cur T : Nat)
    (ti : TimingInfo) (s : PaStream) (tag : Nat) (r : ReplySnapshot)
    (hdir : s.direction = Direction.playback) :
    (∀ j ∈ (correctionWalk N corr cur T ti).applied,
        (corr j).valid = true ∧ T ≤ (corr j).tag) ∧
    List.Chain' (fun a b => (corr a).tag < (corr b).tag)
        (correctionWalk N corr cur T ti).applied ∧
    (correctionWalk N corr cur T ti).applied.Nodup ∧
    (∀ n, n < N → (corr n).tag ≤ T →
        (clearOldCorrections N corr T n).valid = false) ∧
    ((process_timing_reply N s tag r).write_index_corrections =
        clearOldCorrections N s.write_index_corrections tag) ∧
    (∀ (acc : WalkAcc) (j : Nat), (corr j).valid = true →
        acc.ctag ≤ (corr j).tag →
        (((corr j).corrupt = true →
            (applyCorrectionSlot corr acc j).ti.write_index = 0 ∧
            (applyCorrectionSlot corr acc j).ti.write_index_corrupt = true) ∧
         ((corr j).corrupt = false → (corr j).absolute = true →
            (applyCorrectionSlot corr acc j).ti.write_index = (corr j).value ∧
            (applyCorrectionSlot corr acc j).ti.write_index_corrupt = false) ∧
         ((corr j).corrupt = false → (corr j).absolute = false →
            acc.ti.write_index_corrupt = false →
            (applyCorrectionSlot corr acc j).ti.write_index =
              acc.ti.write_index + (corr j).value ∧
            (applyCorrectionSlot corr acc j).ti.write_index_corrupt
              = false))) := by
  obtain ⟨hc, happ, hchain⟩ := foldl_slots_inv corr T (walkIndices N cur)
    ⟨T, ti, []⟩ le_rfl (by intro j hj; simp at hj) List.chain'_nil
  refine ⟨fun j hj => ⟨(happ j hj).1, (happ j hj).2.1⟩, hchain, ?_, ?_, ?_, ?_⟩
  · haveI : IsTrans Nat (fun a b => (corr a).tag < (corr b).tag) :=
      ⟨fun a b c hab hbc => Nat.lt_trans hab hbc⟩
    have hp := List.chain'_iff_pairwise.mp hchain
    exact hp.imp (fun hab => fun he => by rw [he] at hab; exact lt_irrefl _ hab)
  · intro n hn ht
    simp only [clearOldCorrections]
    split
    · rfl
    · rename_i hcond
      rcases Bool.eq_false_or_eq_true (corr n).valid with hv | hv
      · exact absurd ⟨hn, hv, ht⟩ hcond
      · exact hv
  · simp [process_timing_reply, hdir]
  · intro acc j hv hle
    have hng : ¬ (¬ (corr j).valid ∨ (corr j).tag < acc.ctag) := by
      intro hor
      rcases hor with hor | hor
      · exact hor hv
      · omega
    refine ⟨?_, ?_, ?_⟩
    · intro hc1
      simp only [applyCorrectionSlot]
      rw [if_neg hng, if_pos hc1]
      exact ⟨rfl, rfl⟩
    · intro hc1 ha1
      simp only [applyCorrectionSlot]
      rw [if_neg hng, if_neg (by simp [hc1]), if_pos ha1]
      exact ⟨rfl, rfl⟩
    · intro hc1 ha1 hw1
      simp only [applyCorrectionSlot]
      rw [if_neg hng, if_neg (by simp [hc1]), if_neg (by simp [ha1]),
          if_pos (by simp [hw1])]
      exact ⟨rfl, hw1⟩

/-- Witness for C1 at a concrete ring: the slot consumed by the walk on
`streamC5` is valid and carries a tag at least the reply tag. -/
theorem spec_C1_witness : (corrEx1 6).valid = true ∧ 10 ≤ (corrEx1 6).tag :=
  (spec_C1 10 corrEx1 5 10 tiZero streamC5 10 { write_index := 0, read_index := 0 }
    rfl).1 6 (by decide)

/-- C2 (amended): on every successful `pa_stream_write` of `len > 0` bytes
the transport payload lengths sum to `len`, the first payload carries the
caller's offset and seek mode and all later payloads use seek mode
relative with offset 0; the payload count is `ceil(len / maxBlock)` on the
copy path, but a single payload when `free_cb` is given and SHM is not in
use (the buffer is then wrapped whole as a user-owned block). -/
theorem spec_C2 (shm : Bool) (mb : Nat) (s : PaStream) (fcb : Bool)
    (len : Nat) (off : Int) (sk : SeekMode) (out : WriteOutcome)
    (hmb : 0 < mb) (hlen : 0 < len)
    (hok : pa_stream_write shm mb s fcb len off sk = .ok out) :
    ((out.payloads.map Payload.length).sum = len) ∧
    (out.payloads.head?.map (fun p => (p.offset, p.seek)) = some (off, sk)) ∧
    (∀ p ∈ out.payloads.tail, p.offset = 0 ∧ p.seek = SeekMode.relative) ∧
    out.payloads.length =
      (if fcb && !shm then 1 else (len + mb - 1) / mb) := by
  obtain ⟨hp, -, -⟩ :=
    pa_stream_write_ok_main shm mb s fcb len off sk out hok (by omega)
  rw [hp]
  obtain ⟨l, rfl⟩ : ∃ l, len = l + 1 := ⟨len - 1, by omega⟩
  refine ⟨?_, ?_, ?_, ?_⟩
  · exact writeChunksAux_sum (l + 1) (fcb && !shm) mb off sk (l + 1) le_rfl hmb
  · rw [writeChunks_cons]
    rfl
  · rw [writeChunks_cons]
    intro p hp2
    rw [List.tail_cons] at hp2
    exact writeChunksAux_rel l (fcb && !shm) mb _ p hp2
  · cases hub : (fcb && !shm)
    · simp only [Bool.false_eq_true, if_false]
      exact writeChunksAux_count_copy (l + 1) mb off sk (l + 1) le_rfl hmb
    · simp only [if_true]
      rw [writeChunks, writeChunksAux_count_user (l + 1) mb off sk (l + 1)
        (by omega) le_rfl]
      rfl

/-- Counterexample to C2 as stated: with `free_cb` given and SHM disabled,
a ready playback stream writing 8 bytes against a 4-byte max block size
sends one payload, not `ceil(8 / 4) = 2`. -/
theorem spec_C2_counterexample :
    (pa_stream_write false 4 streamEx true 8 0 SeekMode.relative).map
        (fun o => o.payloads.length) = Except.ok 1 ∧
    (8 + 4 - 1) / 4 = 2 := ⟨rfl, rfl⟩

/-- Witness for C2 (amended) at a concrete write: 10 bytes against a
4-byte max block on the copy path give payloads 4 + 4 + 2 with the
caller's absolute seek on the first. -/
theorem spec_C2_witness :
    ((outC2.payloads.map Payload.length).sum = 10) ∧
    (outC2.payloads.head?.map (fun p => (p.offset, p.seek))
        = some (7, SeekMode.absolute)) ∧
    (∀ p ∈ outC2.payloads.tail, p.offset = 0 ∧ p.seek = SeekMode.relative) ∧
    outC2.payloads.length = (if false && !false then 1 else (10 + 4 - 1) / 4) :=
  spec_C2 false 4 streamEx false 10 7 SeekMode.absolute outC2
    (by decide) (by decide) rfl

/-- C3: a successful `pa_stream_write` leaves the credit counter at
`max(0, requested_bytes − len)`; in particular it never becomes
negative. -/
theorem spec_C3 (shm : Bool) (mb : Nat) (s : PaStream) (fcb : Bool)
    (len : Nat) (off : Int) (sk : SeekMode) (out : WriteOutcome)
    (hok : pa_stream_write shm mb s fcb len off sk = .ok out) :
    (out.stream.requested_bytes : Int) =
      max 0 ((s.requested_bytes : Int) - (len : Int)) := by
  by_cases hlen : len = 0
  · subst hlen
    simp only [pa_stream_write] at hok
    split at hok
    · simp at hok
    split at hok
    · simp at hok
    split at hok
    · simp at hok
    injection hok with h
    subst h
    rw [max_eq_right (by omega)]
    simp
  · obtain ⟨-, -, hs⟩ :=
      pa_stream_write_ok_main shm mb s fcb len off sk out hok hlen
    rw [hs, writeUpdateState_rb]
    rcases Nat.lt_or_ge len s.requested_bytes with h | h
    · rw [if_pos h,
          max_eq_right (by omega : (0 : Int) ≤ (s.requested_bytes : Int) - (len : Int))]
      omega
    · rw [if_neg (by omega),
          max_eq_left (by omega : (s.requested_bytes : Int) - (len : Int) ≤ 0)]
      simp

/-- Witness for C3: writing 100 of 4096 requested bytes leaves the credit
counter at `max(0, 4096 − 100)`. -/
theorem spec_C3_witness :
    (outC3.stream.requested_bytes : Int) =
      max 0 ((streamEx.requested_bytes : Int) - ((100 : Nat) : Int)) :=
  spec_C3 false 4096 streamEx false 100 0 SeekMode.relative outC3 rfl

/-- C10: a zero-length `pa_stream_write` that passes the state, direction
and seek validity checks returns success and is a complete no-op: no
payload is sent, `free_cb` is not invoked, and the stream — credit
counter, timing snapshot and correction ring included — is returned
unchanged. -/
theorem spec_C10 (shm : Bool) (mb : Nat) (s : PaStream) (fcb : Bool)
    (off : Int) (sk : SeekMode)
    (h1 : s.state = StreamState.ready)
    (h2 : s.direction = Direction.playback ∨ s.direction = Direction.upload)
    (h3 : s.direction = Direction.playback ∨
      (sk = SeekMode.relative ∧ off = 0)) :
    pa_stream_write shm mb s fcb 0 off sk = .ok ⟨s, [], false⟩ := by
  unfold pa_stream_write
  rw [if_neg (not_not_intro h1), if_neg (not_not_intro h2),
      if_neg (not_not_intro h3), if_pos rfl]

/-- Witness for C10: a zero-length write on the ready playback stream
`streamEx` — even with a corrupting seek mode and non-zero offset — is a
no-op. -/
theorem spec_C10_witness :
    pa_stream_write false 4 streamEx false 0 5 SeekMode.relativeEnd =
      .ok ⟨streamEx, [], false⟩ :=
  spec_C10 false 4 streamEx false 5 SeekMode.relativeEnd rfl
    (Or.inl rfl) (Or.inl rfl)

/-- C4: without the NOT_MONOTONIC flag, two successive successful
`pa_stream_get_time` calls return non-decreasing values: each call
returns the maximum of the freshly computed time and the previously
returned value, and republishes `previous_time` as the value returned. -/
theorem spec_C4 (s : PaStream) (f1 f2 t1 t2 : Nat) (s1 s2 : PaStream)
    (hm : s.flags_not_monotonic = false)
    (h1 : pa_stream_get_time s f1 = .ok (t1, s1))
    (h2 : pa_stream_get_time s1 f2 = .ok (t2, s2)) :
    t1 = max f1 s.previous_time ∧ s1.previous_time = t1 ∧
    t2 = max f2 s1.previous_time ∧ s2.previous_time = t2 ∧ t1 ≤ t2 := by
  obtain ⟨e1, p1, m1⟩ := get_time_ok s f1 t1 s1 hm h1
  obtain ⟨e2, p2, m2⟩ := get_time_ok s1 f2 t2 s2 m1 h2
  refine ⟨e1, p1, e2, p2, ?_⟩
  rw [e2, p1]
  exact le_max_right f2 t1

/-- Witness for C4: raw values 500 then 490 yield published times 500 and
500 on `streamEx`. -/
theorem spec_C4_witness :
    (500 : Nat) = max 500 streamEx.previous_time ∧ s1Ex.previous_time = 500 ∧
    (500 : Nat) = max 490 s1Ex.previous_time ∧ s1Ex.previous_time = 500 ∧
    (500 : Nat) ≤ 500 :=
  spec_C4 streamEx 500 490 500 500 s1Ex s1Ex rfl rfl rfl

/-- C5 (amended): for a latency reply with tag `T`, `T <
read_index_not_before` makes the resulting snapshot's `read_index_corrupt`
true, unconditionally — the correction walk never touches the read fields;
`T < write_index_not_before` makes `write_index_corrupt` true provided no
valid correction slot is absolute — an applied absolute slot overwrites
the write index and clears the corrupt flag again. -/
theorem spec_C5 (N : Nat) (s : PaStream) (tag : Nat) (r : ReplySnapshot) :
    (tag < s.read_index_not_before →
      (process_timing_reply N s tag r).timing_info.read_index_corrupt
        = true) ∧
    ((∀ j, (s.write_index_corrections j).valid = true →
        (s.write_index_corrections j).absolute = false) →
      tag < s.write_index_not_before →
      (process_timing_reply N s tag r).timing_info.write_index_corrupt
        = true) := by
  constructor
  · intro hr
    simp only [process_timing_reply]
    split
    · rw [correctionWalk_read]
      simp [hr]
    · split
      · simp [hr]
      · simp [hr]
  · intro habs hw
    simp only [process_timing_reply]
    split
    · exact correctionWalk_corrupt N s.write_index_corrections
        s.current_write_index_correction tag _ habs (by simp [hw])
    · split
      · simp only [hw]
        split
        · rfl
        · rfl
      · simp [hw]

/-- Counterexample to C5 as stated: on `streamC5` the reply for tag 10 is
behind the barrier (`write_index_not_before = 11`), yet the valid absolute
slot with tag 10 is applied by the walk and clears the corrupt flag, so
the resulting snapshot has `write_index_corrupt = false`. -/
theorem spec_C5_counterexample :
    10 < streamC5.write_index_not_before ∧
    (process_timing_reply 10 streamC5 10
        { write_index := 0, read_index := 0 }).timing_info.write_index_corrupt
      = false := by
  exact ⟨by decide, by decide⟩

/-- Witness for C5 (amended): the reply for tag 10 behind the read
barrier of `streamC5r` yields `read_index_corrupt` even though its ring
holds a valid absolute slot, and behind the write barrier of `streamC5w`
(empty ring) yields `write_index_corrupt`. -/
theorem spec_C5_witness :
    (process_timing_reply 10 streamC5r 10
        { write_index := 0, read_index := 0 }).timing_info.read_index_corrupt
      = true ∧
    (process_timing_reply 10 streamC5w 10
        { write_index := 0, read_index := 0 }).timing_info.write_index_corrupt
      = true := by
  refine ⟨(spec_C5 10 streamC5r 10 { write_index := 0, read_index := 0 }).1
    (by decide), ?_⟩
  exact (spec_C5 10 streamC5w 10 { write_index := 0, read_index := 0 }).2
    (fun j hv => by simp [streamC5w, streamEx, corrInvalid] at hv) (by decide)

/-- C6: on a ready playback stream, `pa_stream_update_timing_info` fails
with the internal error — leaving the stream untouched — exactly when the
ring slot at `(current_write_index_correction + 1) mod N` is still valid;
on success that slot becomes the current slot, initialised to
`{tag = request tag, valid, not absolute, not corrupt, value 0}`. -/
theorem spec_C6 (N : Nat) (s : PaStream) (tag : Nat)
    (hs : s.state = StreamState.ready)
    (hd : s.direction = Direction.playback) :
    (pa_stream_update_timing_info N s tag = .error .internalErr ↔
      (s.write_index_corrections
        ((s.current_write_index_correction + 1) % N)).valid = true) ∧
    ((s.write_index_corrections
        ((s.current_write_index_correction + 1) % N)).valid = false →
      pa_stream_update_timing_info N s tag = .ok
        { s with
            current_write_index_correction :=
              (s.current_write_index_correction + 1) % N,
            write_index_corrections :=
              Function.update s.write_index_corrections
                ((s.current_write_index_correction + 1) % N)
                { tag := tag, valid := true, absolute := false,
                  corrupt := false, value := 0 } }) := by
  have hne : ¬ (s.direction = Direction.upload) := by
    rw [hd]
    decide
  constructor
  · unfold pa_stream_update_timing_info
    rw [if_neg (not_not_intro hs), if_neg hne, if_pos hd]
    cases hv : (s.write_index_corrections
        ((s.current_write_index_correction + 1) % N)).valid
    · rw [if_neg (by simp [hv])]
      simp
    · rw [if_pos hv]
      simp
  · intro hv
    unfold pa_stream_update_timing_info
    rw [if_neg (not_not_intro hs), if_neg hne, if_pos hd,
        if_neg (by simp [hv])]

/-- Witness for C6: on `streamEx` (empty ring, cursor 0) a query with tag
42 succeeds and initialises slot 1. -/
theorem spec_C6_witness :
    pa_stream_update_timing_info 10 streamEx 42 = .ok
      { streamEx with
          current_write_index_correction := 1,
          write_index_corrections :=
            Function.update streamEx.write_index_corrections 1
              { tag := 42, valid := true, absolute := false, corrupt := false,
                value := 0 } } :=
  (spec_C6 10 streamEx 42 rfl rfl).2 (by decide)

/-- C7 (code bug): for version 12 and attributes with `maxlength` unset
(0) but caller-supplied `tlength = 1000` and `minreq = 100`,
`automatic_buffer_attr` leaves `maxlength` at 0 (default NOT applied) and
overwrites the caller's `tlength` and `minreq` with the defaults, because
the C guards read `!attr->field <= 0`, which is true exactly when the
field is non-zero.  Only `prebuf` and `fragsize` follow the claimed
apply-iff-zero rule. -/
theorem spec_C7_code_eval :
    automatic_buffer_attr 12 attrC7 44100 =
      { maxlength := 0, tlength := 44100, prebuf := 44100, minreq := 8820,
        fragsize := 44100 } ∧
    attrC7.maxlength = 0 ∧ attrC7.tlength = 1000 ∧ attrC7.minreq = 100 := by
  exact ⟨by decide, by decide, by decide, by decide⟩

/-- C8 (code bug): after registering a started callback with userdata 1 on
a ready stream whose suspended callback userdata is 2, the STARTED event
handler invokes the started callback with 2 — the `suspended_userdata`
field — instead of the registered 1 (stream.c:529). -/
theorem spec_C8_bug :
    pa_command_stream_started 13 (pa_stream_set_started_callback cbsC8 true 1)
        = some 2 ∧
    (pa_stream_set_started_callback cbsC8 true 1).started_userdata = 1 ∧
    (2 : Nat) ≠ 1 := by
  exact ⟨by decide, by decide, by decide⟩

/-- C9: once a `pa_stream_peek` has returned a chunk, peeking again
without a drop consults the record queue no further, leaves the stream
unchanged and reports the identical `(data, length)` pair. -/
theorem spec_C9 (acquire : Nat → Nat) (s : RecordStream) (r : PeekResult)
    (d : Nat × Nat) (hok : pa_stream_peek acquire s = .ok r)
    (hd : r.dataLen = some d) :
    pa_stream_peek acquire r.stream = .ok ⟨r.stream, some d, false⟩ := by
  simp only [pa_stream_peek] at hok
  split at hok
  · simp at hok
  split at hok
  · simp at hok
  rename_i hst hdr
  split at hok
  · rename_i hpk
    split at hok
    · injection hok with h
      subst h
      simp at hd
    · rename_i c hq
      injection hok with h
      subst h
      simp only at hd
      injection hd with hd2
      subst hd2
      simp only [pa_stream_peek]
      rw [if_neg hst, if_neg hdr]
  · rename_i c hpk
    injection hok with h
    subst h
    simp only at hd
    injection hd with hd2
    subst hd2
    simp only [pa_stream_peek]
    rw [if_neg hst, if_neg hdr, hpk]

/-- Witness for C9: after the first peek on `recEx` returned the chunk at
address 7 with length 5, a second peek returns the same pair without
consulting the queue. -/
theorem spec_C9_witness :
    pa_stream_peek id peekResEx.stream =
      .ok ⟨peekResEx.stream, some (7, 5), false⟩ :=
  spec_C9 id recEx peekResEx (7, 5) rfl rfl
